import Mathlib

/-!
Shallow embedding of `store.go` (package mariadbstore, the variant with the
`expires` column and the background sweeper) together with proofs about the
session lifecycle engine and the expiration sweeper.

Modelling conventions:
* machine integers (Go `int`, `int64`, Unix seconds) are Lean `Int`;
* the securecookie codec is an external capability and is modelled as a
  structure of fallible encode/decode functions over an opaque `Token` type;
* the prepared SQL statements are modelled as a structure of fallible
  operations (`Backend`); `memBackend` gives them their MariaDB semantics
  over an in-memory table, reproducing each statement's SQL exactly —
  in particular the `UPDATE ... SET expires=?, session_data=?` statement
  prepared at store.go:267 has no `WHERE` clause, so `updateExec` rewrites
  every row;
* `time.Now()` is an explicit `now : Int` parameter to each function that
  calls it;
* the goroutine/channel handshake of `loop` and `Close` is modelled as an
  interleaving transition system (`Step`) over the two threads.
-/

namespace Mariadbstore

/-- Session payload: the caller-visible `session.Values` map
(`map[interface{}]interface{}` in Go), modelled as an association list. -/
abbrev SessionData := List (String × String)

/-- An opaque token produced by the securecookie codec (external capability):
an encoded payload blob, an encoded identifier, or arbitrary bytes (as found
in a tampered cookie). -/
inductive Token where
  | data (d : SessionData)
  | ident (i : String)
  | raw (s : String)
deriving DecidableEq, Repr

/-- The securecookie codec capability: `EncodeMulti`/`DecodeMulti` applied to
`session.Values` (payload) and to `session.ID` (identifier). Each call may
fail (tampered token, payload over the configured length, ...). -/
structure Codec where
  encodeData : SessionData → Except String Token
  decodeData : Token → Except String SessionData
  encodeId : String → Except String Token
  decodeId : Token → Except String String

/-- The `sessions.Session` entity: identifier (empty while unbound), cookie
name, payload, `IsNew` flag, and the per-entity `Options.MaxAge` (seconds). -/
structure Session where
  ID : String
  name : String
  Values : SessionData
  IsNew : Bool
  maxAge : Int
deriving DecidableEq, Repr

/-- A response cookie as written by `http.SetCookie`; `value = none` models
the empty string value `""` used on the delete path (store.go:356). -/
structure Cookie where
  name : String
  value : Option Token
deriving DecidableEq, Repr

/-- The request side: the cookies carried by the inbound request. -/
structure Request where
  cookies : List (String × Token)
deriving DecidableEq, Repr

/-- Go `r.Cookie(name)`: the first request cookie with the given name, or an
error (modelled as `none`) when absent. -/
def Request.cookie (r : Request) (name : String) : Option Token :=
  (r.cookies.find? (fun p => p.1 == name)).map (fun p => p.2)

/-- The prepared statements of the store (store.go:262-285) as fallible
operations over an abstract database state `σ`:
`insertExec` = `INSERT INTO db.tbl SET expires=?, session_data=?` followed by
`LastInsertId`; `updateExec` = `UPDATE db.tbl SET expires=?, session_data=?`;
`selectQueryRow` = `SELECT session_data FROM db.tbl WHERE id=?` with `Scan`;
`deleteExec` = `DELETE FROM db.tbl WHERE id=?`;
`selectAllQuery` = `SELECT id, expires FROM db.tbl` with the rows scanned as
(string id, int64 expires) pairs. -/
structure Backend (σ : Type) where
  insertExec : Int → Token → σ → Except String (Nat × σ)
  updateExec : Int → Token → σ → Except String σ
  selectQueryRow : String → σ → Except String Token
  deleteExec : String → σ → Except String σ
  selectAllQuery : σ → Except String (List (String × Int))

/-- Go `(s *MariadbStore) insert` (store.go:436-457): encode the payload,
compute `expires = time.Now() + MaxAge seconds`, run the insert statement and
bind the store-assigned id onto the session as its decimal string. -/
def insert {σ : Type} (B : Backend σ) (C : Codec) (now : Int) (session : Session)
    (db : σ) : Except String (Session × σ) :=
  match C.encodeData session.Values with
  | .error e => .error e
  | .ok encoded =>
    let expires : Int := now + session.maxAge
    match B.insertExec expires encoded db with
    | .error e => .error e
    | .ok (id, db2) => .ok ({ session with ID := toString id }, db2)

/-- Go `(s *MariadbStore) save` (store.go:459-469): encode the payload,
recompute `expires = time.Now() + MaxAge seconds`, run the update statement. -/
def save {σ : Type} (B : Backend σ) (C : Codec) (now : Int) (session : Session)
    (db : σ) : Except String σ :=
  match C.encodeData session.Values with
  | .error e => .error e
  | .ok encoded =>
    let expires : Int := now + session.maxAge
    B.updateExec expires encoded db

/-- Go `(s *MariadbStore) load` (store.go:471-482): select the payload by the
session's id and decode it into `session.Values`. -/
def load {σ : Type} (B : Backend σ) (C : Codec) (session : Session) (db : σ) :
    Except String Session :=
  match B.selectQueryRow session.ID db with
  | .error e => .error e
  | .ok sessionData =>
    match C.decodeData sessionData with
    | .error e => .error e
    | .ok values => .ok { session with Values := values }

/-- Go `(s *MariadbStore) erase` (store.go:484-487): run the delete statement
on the given id. -/
def erase {σ : Type} (B : Backend σ) (id : String) (db : σ) : Except String σ :=
  B.deleteExec id db

/-- Result of `New`: the returned session, the database state after the call,
and the returned error (if any). -/
structure NewResult (σ : Type) where
  session : Session
  db : σ
  err : Option String
deriving DecidableEq, Repr

/-- Go `(s *MariadbStore) New` (store.go:325-348). A fresh session starts with
`IsNew = true`, empty id and the store's default options. If the request has a
cookie with this name, its value is decoded into the candidate id and the
record is loaded; only when both succeed is `IsNew` cleared. A decode or load
failure (err non-nil) triggers the fallback insert at store.go:343-344; a
missing cookie leaves `err` nil, so no insert runs on that path. -/
def New {σ : Type} (B : Backend σ) (C : Codec) (now : Int) (defaultMaxAge : Int)
    (r : Request) (name : String) (db : σ) : NewResult σ :=
  let session : Session :=
    { ID := "", name := name, Values := [], IsNew := true, maxAge := defaultMaxAge }
  match r.cookie name with
  | none => ⟨session, db, none⟩
  | some c =>
    match C.decodeId c with
    | .error _ =>
      match insert B C now session db with
      | .error e => ⟨session, db, some e⟩
      | .ok (s2, db2) => ⟨s2, db2, none⟩
    | .ok id =>
      let s1 := { session with ID := id }
      match load B C s1 db with
      | .error _ =>
        match insert B C now s1 db with
        | .error e => ⟨s1, db, some e⟩
        | .ok (s2, db2) => ⟨s2, db2, none⟩
      | .ok s2 => ⟨{ s2 with IsNew := false }, db, none⟩

/-- Result of `Save`: the returned error, the session (its id may have been
bound by an insert), the database state, and the response cookies written so
far (`http.SetCookie` appends). -/
structure SaveResult (σ : Type) where
  err : Option String
  session : Session
  db : σ
  resp : List Cookie
deriving DecidableEq, Repr

/-- Go `(s *MariadbStore) Save` (store.go:350-376). With `MaxAge <= 0` the
record is erased and an empty-valued cookie is written; otherwise an unbound
session is inserted and a bound one updated, then the identifier is encoded
and written as the response cookie. Every failure returns before
`http.SetCookie` is reached. -/
def Save {σ : Type} (B : Backend σ) (C : Codec) (now : Int) (session : Session)
    (db : σ) (resp : List Cookie) : SaveResult σ :=
  if session.maxAge ≤ 0 then
    match erase B session.ID db with
    | .error e => ⟨some e, session, db, resp⟩
    | .ok db2 => ⟨none, session, db2, resp ++ [⟨session.name, none⟩]⟩
  else
    let step : Except String (Session × σ) :=
      if session.ID = "" then
        insert B C now session db
      else
        match save B C now session db with
        | .error e => .error e
        | .ok db2 => .ok (session, db2)
    match step with
    | .error e => ⟨some e, session, db, resp⟩
    | .ok (s2, db2) =>
      match C.encodeId s2.ID with
      | .error e => ⟨some e, s2, db2, resp⟩
      | .ok encoded => ⟨none, s2, db2, resp ++ [⟨s2.name, some encoded⟩]⟩

/-- The `for rows.Next()` loop of `cleanExpiredSessions` (store.go:419-432)
over the scanned rows: each `(id, expires)` row with `now > expires` is
deleted; a failing delete returns that error at once, leaving the remaining
rows unprocessed. The returned state is the database as reached so far. -/
def cleanRows {σ : Type} (B : Backend σ) (now : Int) :
    List (String × Int) → σ → σ × Option String
  | [], db => (db, none)
  | (id, expires) :: rest, db =>
    if now > expires then
      match B.deleteExec id db with
      | .error e => (db, some e)
      | .ok db2 => cleanRows B now rest db2
    else
      cleanRows B now rest db

/-- Go `(s *MariadbStore) cleanExpiredSessions` (store.go:411-434): scan all
(id, expires) pairs and delete the expired ones; a query or delete error is
returned to the caller. -/
def cleanExpiredSessions {σ : Type} (B : Backend σ) (now : Int) (db : σ) :
    σ × Option String :=
  match B.selectAllQuery db with
  | .error e => (db, some e)
  | .ok rows => cleanRows B now rows db

/-- What `NewMariadbStore` returns when it succeeds: the database state after
the synchronous startup sweep, and the fact that the background loop was
started (`go s.loop()` at store.go:306). -/
structure StoreInit (σ : Type) where
  db : σ
  loopStarted : Bool
deriving DecidableEq, Repr

/-- Go `NewMariadbStore` (store.go:241-309). `dbIsNil` models `db == nil`;
`setupErr` collapses the DDL `Exec` and statement `Prepare` failure paths
(store.go:246-285), each of which returns its error. On the success path the
constructor runs one synchronous sweep whose return value is discarded
(`s.cleanExpiredSessions()` at store.go:305) and starts the loop. -/
def NewMariadbStore {σ : Type} (B : Backend σ) (now : Int) (dbIsNil : Bool)
    (setupErr : Option String) (db : σ) : Except String (StoreInit σ) :=
  if dbIsNil then .error "db cannot be nil"
  else
    match setupErr with
    | some e => .error e
    | none =>
      let swept := cleanExpiredSessions B now db
      .ok ⟨swept.1, true⟩

/-- One row of the sessions table (store.go:252-256): `id INT PRIMARY KEY
AUTO_INCREMENT`, `expires INT`, `session_data LONGBLOB`. -/
structure Rec where
  id : Nat
  expires : Int
  session_data : Token
deriving DecidableEq, Repr

/-- The in-memory table: its rows and the next AUTO_INCREMENT value. -/
structure Mem where
  records : List Rec
  nextId : Nat
deriving DecidableEq, Repr

/-- The decimal string under which a row's INT key is observed: `Scan` into a
string variable (store.go:420-422) and `fmt.Sprintf` of `LastInsertId`
(store.go:454) both yield this form, and the `WHERE id=?` comparisons coerce
the string parameter back to it. -/
def recIdStr (r : Rec) : String := toString r.id

/-- The MariaDB semantics of the five prepared statements over `Mem`. The
update statement (store.go:267) has no `WHERE` clause, so it rewrites the
`expires` and `session_data` of every row. -/
def memBackend : Backend Mem where
  insertExec := fun expires sd db =>
    .ok (db.nextId, ⟨db.records ++ [⟨db.nextId, expires, sd⟩], db.nextId + 1⟩)
  updateExec := fun expires sd db =>
    .ok ⟨db.records.map (fun r => ⟨r.id, expires, sd⟩), db.nextId⟩
  selectQueryRow := fun idStr db =>
    match db.records.find? (fun r => recIdStr r == idStr) with
    | some r => .ok r.session_data
    | none => .error "sql: no rows in result set"
  deleteExec := fun idStr db =>
    .ok ⟨db.records.filter (fun r => !(recIdStr r == idStr)), db.nextId⟩
  selectAllQuery := fun db =>
    .ok (db.records.map (fun r => (recIdStr r, r.expires)))

/-- A backend on which every statement fails: models a lost connection. -/
def failBackend : Backend Unit where
  insertExec := fun _ _ _ => .error "driver: bad connection"
  updateExec := fun _ _ _ => .error "driver: bad connection"
  selectQueryRow := fun _ _ => .error "driver: bad connection"
  deleteExec := fun _ _ => .error "driver: bad connection"
  selectAllQuery := fun _ => .error "driver: bad connection"

/-- A concrete codec used to instantiate the abstract theorems: it wraps the
value in the corresponding `Token` constructor, decoding succeeds exactly on
tokens of the right shape, so encode/decode round-trip. -/
def idCodec : Codec where
  encodeData := fun d => .ok (.data d)
  decodeData := fun t =>
    match t with
    | .data d => .ok d
    | _ => .error "securecookie: the value is not valid"
  encodeId := fun i => .ok (.ident i)
  decodeId := fun t =>
    match t with
    | .ident i => .ok i
    | _ => .error "securecookie: the value is not valid"

/-- The round-trip observation used for the Save-then-New property: the save
reported no error and wrote exactly the cookie `tokI`, and presenting that
cookie to `New` against the saved database yields the payload `D` with
`IsNew = false` and no error. -/
def RoundTrip (C : Codec) (now2 defMA : Int) (name : String) (D : SessionData)
    (out : SaveResult Mem) (tokI : Token) : Prop :=
  out.err = none ∧
  out.resp = [⟨name, some tokI⟩] ∧
  (New memBackend C now2 defMA ⟨[(name, tokI)]⟩ name out.db).session.Values = D ∧
  (New memBackend C now2 defMA ⟨[(name, tokI)]⟩ name out.db).session.IsNew = false ∧
  (New memBackend C now2 defMA ⟨[(name, tokI)]⟩ name out.db).err = none

/-- Program position of the sweeper goroutine running `loop`
(store.go:397-409): not yet spawned, blocked in the `select`, executing
`cleanExpiredSessions` after a tick, sending on `doneStoppingChan`, or
returned. -/
inductive LoopPC where
  | notStarted
  | atSelect
  | sweeping
  | sendingDone
  | terminated
deriving DecidableEq, Repr

/-- Program position of the foreground thread: inside `NewMariadbStore`
running the synchronous startup sweep (store.go:305), about to run
`go s.loop()` (store.go:306), running normally, then inside `Close`
(store.go:311-319): sending on `stopChan`, receiving on `doneStoppingChan`,
closing the prepared statements, and returned. -/
inductive MainPC where
  | ctorSweep
  | ctorStartLoop
  | running
  | closeSendStop
  | closeWaitDone
  | closeStmts
  | closeDone
deriving DecidableEq, Repr

/-- Joint state of the two threads, with counters observing the sweeps: how
often the constructor's synchronous sweep has run, how many background sweeps
the loop has started, and whether the prepared statements were closed. -/
structure Sys where
  loop : LoopPC
  main : MainPC
  initialSweeps : Nat
  sweeps : Nat
  stmtsClosed : Bool
deriving DecidableEq, Repr

/-- The initial state: `NewMariadbStore` is about to run its startup sweep
and the loop goroutine does not exist yet. -/
def Sys.init : Sys :=
  ⟨.notStarted, .ctorSweep, 0, 0, false⟩

/-- Interleaving semantics of the two threads. `stopChan` and
`doneStoppingChan` are unbuffered, so each send/receive pair is one joint
rendezvous transition. -/
inductive Step : Sys → Sys → Prop where
  /-- The constructor's synchronous sweep, `s.cleanExpiredSessions()` at
  store.go:305. -/
  | ctorSweep (s : Sys) (h : s.main = .ctorSweep) :
      Step s { s with main := .ctorStartLoop, initialSweeps := s.initialSweeps + 1 }
  /-- The statement `go s.loop()` at store.go:306: the loop goroutine becomes
  runnable at its `select`. -/
  | ctorStartLoop (s : Sys) (h : s.main = .ctorStartLoop) (h2 : s.loop = .notStarted) :
      Step s { s with main := .running, loop := .atSelect }
  /-- A ticker tick arrives (store.go:402): the loop leaves the `select` and
  starts a background sweep. -/
  | tick (s : Sys) (h : s.loop = .atSelect) :
      Step s { s with loop := .sweeping, sweeps := s.sweeps + 1 }
  /-- The background `cleanExpiredSessions` call returns (store.go:403) and
  the loop re-enters the `select`. -/
  | sweepDone (s : Sys) (h : s.loop = .sweeping) :
      Step s { s with loop := .atSelect }
  /-- The embedding application invokes `Close` (store.go:311). -/
  | closeCall (s : Sys) (h : s.main = .running) :
      Step s { s with main := .closeSendStop }
  /-- Rendezvous on the unbuffered `stopChan`: `s.stopChan <- struct{}{}`
  (store.go:312) pairs with `case <-s.stopChan` (store.go:404). It requires
  the loop to be back at its `select`, so `Close` blocks while a sweep runs. -/
  | stopRendezvous (s : Sys) (h : s.main = .closeSendStop) (h2 : s.loop = .atSelect) :
      Step s { s with main := .closeWaitDone, loop := .sendingDone }
  /-- Rendezvous on the unbuffered `doneStoppingChan`:
  `s.doneStoppingChan <- struct{}{}` (store.go:405) pairs with
  `<-s.doneStoppingChan` (store.go:313); the loop then returns. -/
  | doneRendezvous (s : Sys) (h : s.main = .closeWaitDone) (h2 : s.loop = .sendingDone) :
      Step s { s with main := .closeStmts, loop := .terminated }
  /-- Finally `Close` closes the four prepared statements (store.go:315-318)
  and returns. -/
  | closeStmts (s : Sys) (h : s.main = .closeStmts) :
      Step s { s with main := .closeDone, stmtsClosed := true }

/-- States reachable from the initial state. -/
inductive Reachable : Sys → Prop where
  | init : Reachable Sys.init
  | step {s t : Sys} : Reachable s → Step s t → Reachable t

/-- Zero or more steps. -/
inductive StepStar : Sys → Sys → Prop where
  | refl (s : Sys) : StepStar s s
  | tail {s t u : Sys} : StepStar s t → Step t u → StepStar s u

/-- The inductive invariant of the handshake system: the constructor phases
pin the loop and the sweep counters, each rendezvous couples the two program
counters, the statements are closed exactly when `Close` has returned, and
the synchronous startup sweep precedes both the loop start and any
background sweep. -/
def Inv (s : Sys) : Prop :=
  (s.main = .ctorSweep → s.loop = .notStarted ∧ s.initialSweeps = 0) ∧
  (s.main = .ctorStartLoop → s.loop = .notStarted ∧ s.initialSweeps = 1) ∧
  (s.loop = .notStarted → s.main = .ctorSweep ∨ s.main = .ctorStartLoop) ∧
  (s.main = .closeWaitDone ↔ s.loop = .sendingDone) ∧
  ((s.main = .closeStmts ∨ s.main = .closeDone) → s.loop = .terminated) ∧
  (s.loop = .terminated → s.main = .closeStmts ∨ s.main = .closeDone) ∧
  (s.stmtsClosed = true ↔ s.main = .closeDone) ∧
  (s.loop ≠ .notStarted → s.initialSweeps = 1) ∧
  (1 ≤ s.sweeps → s.initialSweeps = 1)

theorem inv_init : Inv Sys.init := by
  simp [Inv, Sys.init]

theorem inv_step {s t : Sys} (hI : Inv s) (hst : Step s t) : Inv t := by
  cases hst <;> simp_all [Inv]

theorem reachable_inv {s : Sys} (h : Reachable s) : Inv s := by
  induction h with
  | init => exact inv_init
  | step _ hst ih => exact inv_step ih hst

theorem terminated_step {s t : Sys} (hst : Step s t) (h : s.loop = .terminated) :
    t.loop = .terminated ∧ t.sweeps = s.sweeps := by
  cases hst <;> simp_all

theorem terminated_star {s t : Sys} (hst : StepStar s t) (h : s.loop = .terminated) :
    t.loop = .terminated ∧ t.sweeps = s.sweeps := by
  induction hst with
  | refl => exact ⟨h, rfl⟩
  | tail _ hstep ih =>
    obtain ⟨h1, h2⟩ := ih
    obtain ⟨h3, h4⟩ := terminated_step hstep h1
    exact ⟨h3, h4.trans h2⟩

/-- A reachable state in which the store has been constructed and the loop is
parked at its `select`. -/
theorem reachable_running :
    Reachable (⟨.atSelect, .running, 1, 0, false⟩ : Sys) := by
  have h0 : Reachable (⟨.notStarted, .ctorSweep, 0, 0, false⟩ : Sys) := Reachable.init
  have h1 : Reachable (⟨.notStarted, .ctorStartLoop, 1, 0, false⟩ : Sys) :=
    h0.step (Step.ctorSweep _ rfl)
  exact h1.step (Step.ctorStartLoop _ rfl rfl)

/-- A reachable state in which `Close` has returned and the statements are
closed. -/
theorem reachable_closed :
    Reachable (⟨.terminated, .closeDone, 1, 0, true⟩ : Sys) := by
  have h2 := reachable_running
  have h3 : Reachable (⟨.atSelect, .closeSendStop, 1, 0, false⟩ : Sys) :=
    h2.step (Step.closeCall _ rfl)
  have h4 : Reachable (⟨.sendingDone, .closeWaitDone, 1, 0, false⟩ : Sys) :=
    h3.step (Step.stopRendezvous _ rfl rfl)
  have h5 : Reachable (⟨.terminated, .closeStmts, 1, 0, false⟩ : Sys) :=
    h4.step (Step.doneRendezvous _ rfl rfl)
  exact h5.step (Step.closeStmts _ rfl)

/-- C10: the constructor discards the result of its synchronous startup sweep
(`s.cleanExpiredSessions()` at store.go:305): even when that sweep fails,
`NewMariadbStore` still returns the store (with the background loop started)
and a nil error, so a startup sweep failure is never observable to the
caller. -/
theorem C10_ctor_discards_sweep_error {σ : Type} (B : Backend σ) (now : Int)
    (db : σ) (e : String) (_h : (cleanExpiredSessions B now db).2 = some e) :
    NewMariadbStore B now false none db =
      .ok ⟨(cleanExpiredSessions B now db).1, true⟩ := by
  simp [NewMariadbStore]

theorem C10_ctor_discards_sweep_error_witness :
    (cleanExpiredSessions failBackend 0 ()).2 = some "driver: bad connection" ∧
    NewMariadbStore failBackend 0 false none () = .ok ⟨(), true⟩ :=
  ⟨rfl, C10_ctor_discards_sweep_error failBackend 0 () "driver: bad connection" rfl⟩

/-- C1 fails on the code: the update statement prepared at store.go:267 is
`UPDATE db.tbl SET expires=?, session_data=?` with no `WHERE` clause, so a
`Save` of the entity bound to identifier "1" (with `max_age > 0`) also
rewrites the `session_data` and `expires` of the record with identifier "2".
This theorem evaluates `Save` at that failing input and shows both rows end
up overwritten. -/
theorem C1_update_clobbers_other_records :
    (Save memBackend idCodec 100
        ⟨"1", "sid", [("user", "alice")], false, 10⟩
        ⟨[⟨1, 50, .raw "A"⟩, ⟨2, 60, .raw "B"⟩], 3⟩ []).db =
      ⟨[⟨1, 110, .data [("user", "alice")]⟩, ⟨2, 110, .data [("user", "alice")]⟩], 3⟩ := by
  rfl

/-- C8: `expires` is recomputed as the write time plus the entity's current
max_age on every write, not only at creation: a successful `insert`
(store.go:442-444) stamps `now + maxAge` on the new row, and a successful
`save` (store.go:465-467) stamps the freshly recomputed `now + maxAge` on
every row it writes. -/
theorem C8_expires_recomputed (C : Codec) (now : Int) (session : Session)
    (db : Mem) (tok : Token) (henc : C.encodeData session.Values = .ok tok) :
    insert memBackend C now session db =
      .ok ({ session with ID := toString db.nextId },
        ⟨db.records ++ [⟨db.nextId, now + session.maxAge, tok⟩], db.nextId + 1⟩) ∧
    save memBackend C now session db =
      .ok ⟨db.records.map (fun r => ⟨r.id, now + session.maxAge, tok⟩), db.nextId⟩ := by
  constructor
  · simp [insert, henc, memBackend]
  · simp [save, henc, memBackend]

theorem C8_expires_recomputed_witness :
    insert memBackend idCodec 100 ⟨"", "sid", [("k", "v")], true, 30⟩ ⟨[], 1⟩ =
      .ok (⟨"1", "sid", [("k", "v")], true, 30⟩,
        ⟨[⟨1, 130, .data [("k", "v")]⟩], 2⟩) ∧
    save memBackend idCodec 100 ⟨"5", "sid", [("k", "v")], false, 30⟩
        ⟨[⟨5, 7, .raw "old"⟩], 6⟩ =
      .ok ⟨[⟨5, 130, .data [("k", "v")]⟩], 6⟩ :=
  ⟨(C8_expires_recomputed idCodec 100 ⟨"", "sid", [("k", "v")], true, 30⟩
      ⟨[], 1⟩ (.data [("k", "v")]) rfl).1,
   (C8_expires_recomputed idCodec 100 ⟨"5", "sid", [("k", "v")], false, 30⟩
      ⟨[⟨5, 7, .raw "old"⟩], 6⟩ (.data [("k", "v")]) rfl).2⟩

/-- C4: with `max_age <= 0`, `Save` (store.go:352-358) erases the record with
the entity's identifier, and when the delete succeeds it writes a response
cookie with the empty value and returns nil; when the delete fails, that
error is returned and no cookie is written. On the concrete backend the
delete is a no-op when no record has the entity's identifier. -/
theorem C4_save_deletes_on_nonpositive_maxage {σ : Type} (B : Backend σ)
    (C : Codec) (now : Int) (session : Session) (db : σ) (resp : List Cookie)
    (h : session.maxAge ≤ 0) :
    (∀ db2, B.deleteExec session.ID db = .ok db2 →
      Save B C now session db resp =
        ⟨none, session, db2, resp ++ [⟨session.name, none⟩]⟩) ∧
    (∀ e, B.deleteExec session.ID db = .error e →
      Save B C now session db resp = ⟨some e, session, db, resp⟩) ∧
    (∀ dbm : Mem, (∀ r ∈ dbm.records, recIdStr r ≠ session.ID) →
      erase memBackend session.ID dbm = .ok dbm) := by
  refine ⟨fun db2 hdel => ?_, fun e hdel => ?_, fun dbm habsent => ?_⟩
  · simp [Save, h, erase, hdel]
  · simp [Save, h, erase, hdel]
  · have hfilter : dbm.records.filter (fun r => !(recIdStr r == session.ID)) =
        dbm.records := by
      refine List.filter_eq_self.mpr (fun r hr => ?_)
      simp [habsent r hr]
    simp [erase, memBackend, hfilter]

theorem C4_save_deletes_on_nonpositive_maxage_witness :
    Save memBackend idCodec 100 ⟨"1", "sid", [("k", "v")], false, 0⟩
        ⟨[⟨1, 50, .raw "A"⟩, ⟨2, 60, .raw "B"⟩], 3⟩ [] =
      ⟨none, ⟨"1", "sid", [("k", "v")], false, 0⟩,
        ⟨[⟨2, 60, .raw "B"⟩], 3⟩, [⟨"sid", none⟩]⟩ ∧
    Save failBackend idCodec 100 ⟨"1", "sid", [], false, 0⟩ () [] =
      ⟨some "driver: bad connection", ⟨"1", "sid", [], false, 0⟩, (), []⟩ ∧
    erase memBackend "9" ⟨[⟨1, 50, .raw "A"⟩], 2⟩ = .ok ⟨[⟨1, 50, .raw "A"⟩], 2⟩ :=
  ⟨(C4_save_deletes_on_nonpositive_maxage memBackend idCodec 100
      ⟨"1", "sid", [("k", "v")], false, 0⟩
      ⟨[⟨1, 50, .raw "A"⟩, ⟨2, 60, .raw "B"⟩], 3⟩ [] (by decide)).1 _ rfl,
   (C4_save_deletes_on_nonpositive_maxage failBackend idCodec 100
      ⟨"1", "sid", [], false, 0⟩ () [] (by decide)).2.1 _ rfl,
   (C4_save_deletes_on_nonpositive_maxage memBackend idCodec 100
      ⟨"9", "x", [], false, 0⟩ ⟨[], 1⟩ [] (by decide)).2.2
      ⟨[⟨1, 50, .raw "A"⟩], 2⟩ (by decide)⟩

/-- A successful `insert` binds a fresh identifier but leaves the session's
name (and everything except `ID`) unchanged. -/
theorem insert_name {σ : Type} {B : Backend σ} {C : Codec} {now : Int}
    {session s2 : Session} {db : σ} {db2 : σ}
    (h : insert B C now session db = .ok (s2, db2)) : s2.name = session.name := by
  cases henc : C.encodeData session.Values with
  | error e => simp [insert, henc] at h
  | ok tok =>
    cases hexec : B.insertExec (now + session.maxAge) tok db with
    | error e => simp [insert, henc, hexec] at h
    | ok q =>
      simp [insert, henc, hexec] at h
      obtain ⟨h1, h2⟩ := h
      subst h1
      rfl

/-- C6: with `max_age > 0`, `Save` (store.go:360-375) writes the response
cookie only after the insert/update and the identifier encoding have
succeeded: whenever it returns an error — from the payload encode, the
insert/update, or the identifier encode — the response is untouched, and
whenever it returns nil the persistence call succeeded and the appended
cookie carries the encoded identifier. -/
theorem C6_cookie_only_after_persist {σ : Type} (B : Backend σ) (C : Codec)
    (now : Int) (session : Session) (db : σ) (resp : List Cookie)
    (h : ¬ session.maxAge ≤ 0) :
    ((Save B C now session db resp).err.isSome = true →
      (Save B C now session db resp).resp = resp) ∧
    (∀ e, session.ID = "" → insert B C now session db = .error e →
      Save B C now session db resp = ⟨some e, session, db, resp⟩) ∧
    (∀ e, session.ID ≠ "" → save B C now session db = .error e →
      Save B C now session db resp = ⟨some e, session, db, resp⟩) ∧
    (∀ e s2 db2, session.ID = "" → insert B C now session db = .ok (s2, db2) →
      C.encodeId s2.ID = .error e →
      Save B C now session db resp = ⟨some e, s2, db2, resp⟩) ∧
    ((Save B C now session db resp).err = none →
      ∃ tok, C.encodeId (Save B C now session db resp).session.ID = .ok tok ∧
        (Save B C now session db resp).resp =
          resp ++ [⟨session.name, some tok⟩] ∧
        (if session.ID = "" then
          insert B C now session db =
            .ok ((Save B C now session db resp).session,
              (Save B C now session db resp).db)
        else
          save B C now session db = .ok (Save B C now session db resp).db ∧
            (Save B C now session db resp).session = session)) := by
  refine ⟨?_, ?_, ?_, ?_, ?_⟩
  · by_cases hid : session.ID = ""
    · cases hins : insert B C now session db with
      | error e => simp [Save, h, hid, hins]
      | ok p =>
        cases henc : C.encodeId p.1.ID with
        | error e => simp [Save, h, hid, hins, henc]
        | ok tok => simp [Save, h, hid, hins, henc]
    · cases hsave : save B C now session db with
      | error e => simp [Save, h, hid, hsave]
      | ok db2 =>
        cases henc : C.encodeId session.ID with
        | error e => simp [Save, h, hid, hsave, henc]
        | ok tok => simp [Save, h, hid, hsave, henc]
  · intro e hid hins
    simp [Save, h, hid, hins]
  · intro e hid hsave
    simp [Save, h, hid, hsave]
  · intro e s2 db2 hid hins henc
    simp [Save, h, hid, hins, henc]
  · by_cases hid : session.ID = ""
    · cases hins : insert B C now session db with
      | error e => simp [Save, h, hid, hins]
      | ok p =>
        cases henc : C.encodeId p.1.ID with
        | error e => simp [Save, h, hid, hins, henc]
        | ok tok =>
          have hname : p.1.name = session.name := insert_name hins
          simp [Save, h, hid, hins, henc, hname]
    · cases hsave : save B C now session db with
      | error e => simp [Save, h, hid, hsave]
      | ok db2 =>
        cases henc : C.encodeId session.ID with
        | error e => simp [Save, h, hid, hsave, henc]
        | ok tok => simp [Save, h, hid, hsave, henc]

theorem C6_cookie_only_after_persist_witness :
    (Save failBackend idCodec 100 ⟨"", "sid", [("k", "v")], true, 30⟩ ()
      [⟨"other", none⟩]).resp = [⟨"other", none⟩] :=
  (C6_cookie_only_after_persist failBackend idCodec 100
    ⟨"", "sid", [("k", "v")], true, 30⟩ () [⟨"other", none⟩] (by decide)).1 rfl

/-- Equation for the insert statement on the concrete table. -/
theorem memBackend_insertExec (expires : Int) (sd : Token) (db : Mem) :
    memBackend.insertExec expires sd db =
      .ok (db.nextId, ⟨db.records ++ [⟨db.nextId, expires, sd⟩], db.nextId + 1⟩) :=
  rfl

/-- Equation for the update statement on the concrete table: it has no WHERE
clause, so every row is rewritten. -/
theorem memBackend_updateExec (expires : Int) (sd : Token) (db : Mem) :
    memBackend.updateExec expires sd db =
      .ok ⟨db.records.map (fun r => ⟨r.id, expires, sd⟩), db.nextId⟩ :=
  rfl

/-- Equation for the select-by-id statement on the concrete table. -/
theorem memBackend_selectQueryRow (idStr : String) (db : Mem) :
    memBackend.selectQueryRow idStr db =
      match db.records.find? (fun r => recIdStr r == idStr) with
      | some r => .ok r.session_data
      | none => .error "sql: no rows in result set" :=
  rfl

/-- Equation for the delete-by-id statement on the concrete table. -/
theorem memBackend_deleteExec (idStr : String) (db : Mem) :
    memBackend.deleteExec idStr db =
      .ok ⟨db.records.filter (fun r => !(recIdStr r == idStr)), db.nextId⟩ :=
  rfl

/-- Equation for the scan-all statement on the concrete table. -/
theorem memBackend_selectAllQuery (db : Mem) :
    memBackend.selectAllQuery db =
      .ok (db.records.map (fun r => (recIdStr r, r.expires))) :=
  rfl

/-- Main induction for the sweep over the in-memory table: processing the
scanned rows of a suffix `rs` of the table, while the already-processed
survivors `pre` stay in place, deletes from `rs` exactly the records with
`now > expires`. Distinctness of the row identifiers (the PRIMARY KEY)
guarantees each delete removes just its own record. -/
theorem cleanRows_memBackend (now : Int) (rs : List Rec) :
    ∀ (pre : List Rec) (n : Nat),
      (∀ x ∈ pre, ∀ y ∈ rs, recIdStr x ≠ recIdStr y) →
      rs.Pairwise (fun a b => recIdStr a ≠ recIdStr b) →
      cleanRows memBackend now (rs.map (fun r => (recIdStr r, r.expires)))
          ⟨pre ++ rs, n⟩ =
        (⟨pre ++ rs.filter (fun r => !decide (now > r.expires)), n⟩, none) := by
  induction rs with
  | nil =>
    intro pre n _ _
    simp [cleanRows]
  | cons r rest ih =>
    intro pre n hdisj hpw
    have hr : ∀ y ∈ rest, recIdStr r ≠ recIdStr y :=
      fun y hy => List.rel_of_pairwise_cons hpw hy
    have hrest : rest.Pairwise (fun a b => recIdStr a ≠ recIdStr b) := hpw.of_cons
    by_cases hexp : now > r.expires
    · have h1 : pre.filter (fun x => !(recIdStr x == recIdStr r)) = pre :=
        List.filter_eq_self.mpr (fun x hx => by
          simp [hdisj x hx r (List.mem_cons_self r rest)])
      have h2 : (r :: rest).filter (fun x => !(recIdStr x == recIdStr r)) = rest := by
        rw [List.filter_cons, if_neg (by simp)]
        exact List.filter_eq_self.mpr (fun x hx => by simp [(hr x hx).symm])
      have hdel : (pre ++ r :: rest).filter (fun x => !(recIdStr x == recIdStr r)) =
          pre ++ rest := by
        rw [List.filter_append, h1, h2]
      have hstep := ih pre n
        (fun x hx y hy => hdisj x hx y (List.mem_cons_of_mem r hy)) hrest
      simp only [List.map_cons, cleanRows, if_pos hexp, memBackend_deleteExec]
      rw [show ((⟨pre ++ r :: rest, n⟩ : Mem).records.filter
            (fun x => !(recIdStr x == recIdStr r))) = pre ++ rest from hdel]
      rw [hstep, List.filter_cons, if_neg (by simp [hexp])]
    · have hstep := ih (pre ++ [r]) n
        (fun x hx y hy => by
          rcases List.mem_append.mp hx with hx1 | hx1
          · exact hdisj x hx1 y (List.mem_cons_of_mem r hy)
          · have hxr : x = r := by simpa using hx1
            exact hxr ▸ hr y hy) hrest
      rw [List.append_assoc, List.singleton_append] at hstep
      simp only [List.map_cons, cleanRows, if_neg hexp]
      rw [hstep, List.filter_cons, if_pos (by simp [hexp])]
      rw [List.append_assoc, List.singleton_append]

/-- C5: one sweep scans every (identifier, expires) pair and, on the concrete
table, deletes exactly the records with `now > expires` — a record with
`expires = now` is kept; and whenever a delete in the row loop fails, the
remaining rows are not processed and that error is returned (which
`cleanExpiredSessions` hands to its caller). -/
theorem C5_sweep_exact_and_abort (now : Int) :
    (∀ db : Mem, db.records.Pairwise (fun a b => recIdStr a ≠ recIdStr b) →
      cleanExpiredSessions memBackend now db =
        (⟨db.records.filter (fun r => !decide (now > r.expires)), db.nextId⟩, none)) ∧
    (∀ (σ : Type) (B : Backend σ) (id : String) (expires : Int)
        (rest : List (String × Int)) (db : σ) (e : String),
      now > expires → B.deleteExec id db = .error e →
      cleanRows B now ((id, expires) :: rest) db = (db, some e)) := by
  constructor
  · intro db hpw
    have h := cleanRows_memBackend now db.records [] db.nextId
      (by intro x hx; simp at hx) hpw
    simp only [List.nil_append] at h
    simp only [cleanExpiredSessions, memBackend_selectAllQuery]
    exact h
  · intro σ B id expires rest db e hexp hdel
    simp [cleanRows, hexp, hdel]

theorem C5_sweep_exact_and_abort_witness :
    cleanExpiredSessions memBackend 7
        ⟨[⟨1, 5, .raw "A"⟩, ⟨2, 10, .raw "B"⟩, ⟨3, 7, .raw "C"⟩], 4⟩ =
      (⟨[⟨2, 10, .raw "B"⟩, ⟨3, 7, .raw "C"⟩], 4⟩, none) ∧
    cleanRows failBackend 7 [("1", 5), ("9", 1)] () =
      ((), some "driver: bad connection") :=
  ⟨(C5_sweep_exact_and_abort 7).1
      ⟨[⟨1, 5, .raw "A"⟩, ⟨2, 10, .raw "B"⟩, ⟨3, 7, .raw "C"⟩], 4⟩ (by decide),
   (C5_sweep_exact_and_abort 7).2 Unit failBackend "1" 5 [("9", 1)] ()
      "driver: bad connection" (by decide) rfl⟩

/-- C3 as frozen is false on the code: when the request carries no cookie at
all, `r.Cookie` fails, `err` stays nil (store.go:330-331), and the fallback
insert at store.go:343-344 never runs. At this concrete input — no cookie, a
one-record table — `New` returns an entity with an empty identifier (not a
store-assigned one), leaves the table unchanged (no brand-new record is
inserted), and returns a nil error. -/
theorem C3_counterexample_missing_cookie :
    (New memBackend idCodec 100 30 ⟨[]⟩ "sid" ⟨[⟨1, 50, .raw "A"⟩], 2⟩).session.ID
        = "" ∧
    (New memBackend idCodec 100 30 ⟨[]⟩ "sid" ⟨[⟨1, 50, .raw "A"⟩], 2⟩).db =
      ⟨[⟨1, 50, .raw "A"⟩], 2⟩ ∧
    (New memBackend idCodec 100 30 ⟨[]⟩ "sid" ⟨[⟨1, 50, .raw "A"⟩], 2⟩).err = none :=
  ⟨rfl, rfl, rfl⟩

/-- C3 amended: when the request carries a cookie and decoding it or loading
its record fails, `New` does not surface that failure: it degrades to the
fallback insert, returning the inserted (still `IsNew = true`) entity with a
nil error, and returns a non-nil error exactly when that insert itself fails;
when the request carries no cookie, `New` performs no insert and returns the
unbound fresh entity with a nil error. -/
theorem C3_new_fallback_paths {σ : Type} (B : Backend σ) (C : Codec)
    (now defMA : Int) (r : Request) (name : String) (db : σ) :
    (r.cookie name = none →
      New B C now defMA r name db =
        ⟨{ ID := "", name := name, Values := [], IsNew := true, maxAge := defMA },
          db, none⟩) ∧
    (∀ c e, r.cookie name = some c → C.decodeId c = .error e →
      New B C now defMA r name db =
        match insert B C now
            { ID := "", name := name, Values := [], IsNew := true, maxAge := defMA }
            db with
        | .error e2 =>
          ⟨{ ID := "", name := name, Values := [], IsNew := true, maxAge := defMA },
            db, some e2⟩
        | .ok (s2, db2) => ⟨s2, db2, none⟩) ∧
    (∀ c idv e, r.cookie name = some c → C.decodeId c = .ok idv →
      load B C
          { ID := idv, name := name, Values := [], IsNew := true, maxAge := defMA }
          db = .error e →
      New B C now defMA r name db =
        match insert B C now
            { ID := idv, name := name, Values := [], IsNew := true, maxAge := defMA }
            db with
        | .error e2 =>
          ⟨{ ID := idv, name := name, Values := [], IsNew := true, maxAge := defMA },
            db, some e2⟩
        | .ok (s2, db2) => ⟨s2, db2, none⟩) := by
  refine ⟨fun hc => ?_, fun c e hc hdec => ?_, fun c idv e hc hdec hload => ?_⟩
  · simp [New, hc]
  · simp [New, hc, hdec]
  · simp [New, hc, hdec, hload]

theorem C3_new_fallback_paths_witness :
    New memBackend idCodec 100 30 ⟨[("sid", .raw "tampered")]⟩ "sid" ⟨[], 1⟩ =
      ⟨⟨"1", "sid", [], true, 30⟩, ⟨[⟨1, 130, .data []⟩], 2⟩, none⟩ :=
  (C3_new_fallback_paths memBackend idCodec 100 30
      ⟨[("sid", .raw "tampered")]⟩ "sid" ⟨[], 1⟩).2.1
    (.raw "tampered") "securecookie: the value is not valid" rfl rfl

/-- C2: the Save-then-New round trip. For any payload `D` and `max_age > 0`,
saving an entity holding `D` and presenting the cookie that `Save` produced
back to `New` yields an entity whose data equals `D` with `IsNew = false`.
Both entity shapes are covered: an unbound entity (inserted, provided the
AUTO_INCREMENT key is fresh) and a bound entity whose record is present in
the table. The codec hypotheses say that the external securecookie codec
round-trips on the values involved. -/
theorem C2_save_then_new_roundtrip (C : Codec) (D : SessionData)
    (maxAge defMA now now2 : Int) (db : Mem) (name : String) (tokD : Token)
    (hma : 0 < maxAge)
    (hencD : C.encodeData D = .ok tokD)
    (hdecD : C.decodeData tokD = .ok D) :
    (∀ tokI, C.encodeId (toString db.nextId) = .ok tokI →
      C.decodeId tokI = .ok (toString db.nextId) →
      (∀ r ∈ db.records, recIdStr r ≠ toString db.nextId) →
      RoundTrip C now2 defMA name D
        (Save memBackend C now ⟨"", name, D, true, maxAge⟩ db []) tokI) ∧
    (∀ idStr tokI, idStr ≠ "" →
      C.encodeId idStr = .ok tokI →
      C.decodeId tokI = .ok idStr →
      (db.records.find? (fun r => recIdStr r == idStr)).isSome = true →
      RoundTrip C now2 defMA name D
        (Save memBackend C now ⟨idStr, name, D, false, maxAge⟩ db []) tokI) := by
  have hle : ¬ maxAge ≤ 0 := not_le.mpr hma
  constructor
  · intro tokI hencI hdecI hfresh
    have hsave : Save memBackend C now ⟨"", name, D, true, maxAge⟩ db [] =
        ⟨none, ⟨toString db.nextId, name, D, true, maxAge⟩,
          ⟨db.records ++ [⟨db.nextId, now + maxAge, tokD⟩], db.nextId + 1⟩,
          [⟨name, some tokI⟩]⟩ := by
      simp [Save, insert, hle, hencD, hencI, memBackend_insertExec]
    have hcookie : Request.cookie ⟨[(name, tokI)]⟩ name = some tokI := by
      simp [Request.cookie]
    have h1 : db.records.find? (fun r => recIdStr r == toString db.nextId) = none :=
      List.find?_eq_none.mpr (fun x hx => by simp [hfresh x hx])
    have hload : load memBackend C
        ⟨toString db.nextId, name, [], true, defMA⟩
        ⟨db.records ++ [⟨db.nextId, now + maxAge, tokD⟩], db.nextId + 1⟩ =
          .ok ⟨toString db.nextId, name, D, true, defMA⟩ := by
      simp only [load, memBackend_selectQueryRow]
      rw [List.find?_append, h1]
      simp [recIdStr, hdecD]
    have hnew : New memBackend C now2 defMA ⟨[(name, tokI)]⟩ name
        ⟨db.records ++ [⟨db.nextId, now + maxAge, tokD⟩], db.nextId + 1⟩ =
          ⟨⟨toString db.nextId, name, D, false, defMA⟩,
            ⟨db.records ++ [⟨db.nextId, now + maxAge, tokD⟩], db.nextId + 1⟩,
            none⟩ := by
      simp [New, hcookie, hdecI, hload]
    simp [RoundTrip, hsave, hnew]
  · intro idStr tokI hne hencI hdecI hfindSome
    obtain ⟨r0, hr0⟩ := Option.isSome_iff_exists.mp hfindSome
    have hsave : Save memBackend C now ⟨idStr, name, D, false, maxAge⟩ db [] =
        ⟨none, ⟨idStr, name, D, false, maxAge⟩,
          ⟨db.records.map (fun r => ⟨r.id, now + maxAge, tokD⟩), db.nextId⟩,
          [⟨name, some tokI⟩]⟩ := by
      simp [Save, save, hle, hne, hencD, hencI, memBackend_updateExec]
    have hcookie : Request.cookie ⟨[(name, tokI)]⟩ name = some tokI := by
      simp [Request.cookie]
    have hcomp : ((fun r => recIdStr r == idStr) ∘
        (fun r => (⟨r.id, now + maxAge, tokD⟩ : Rec))) =
          (fun r => recIdStr r == idStr) := by
      funext x
      simp [recIdStr]
    have hload2 : load memBackend C ⟨idStr, name, [], true, defMA⟩
        ⟨db.records.map (fun r => ⟨r.id, now + maxAge, tokD⟩), db.nextId⟩ =
          .ok ⟨idStr, name, D, true, defMA⟩ := by
      simp only [load, memBackend_selectQueryRow]
      rw [List.find?_map, hcomp, hr0]
      simp [hdecD]
    have hnew2 : New memBackend C now2 defMA ⟨[(name, tokI)]⟩ name
        ⟨db.records.map (fun r => ⟨r.id, now + maxAge, tokD⟩), db.nextId⟩ =
          ⟨⟨idStr, name, D, false, defMA⟩,
            ⟨db.records.map (fun r => ⟨r.id, now + maxAge, tokD⟩), db.nextId⟩,
            none⟩ := by
      simp [New, hcookie, hdecI, hload2]
    simp [RoundTrip, hsave, hnew2]

theorem C2_save_then_new_roundtrip_witness :
    RoundTrip idCodec 100 30 "sid" [("user", "alice")]
      (Save memBackend idCodec 100
        ⟨"", "sid", [("user", "alice")], true, 30⟩ ⟨[], 1⟩ [])
      (.ident "1") :=
  (C2_save_then_new_roundtrip idCodec [("user", "alice")] 30 30 100 100
      ⟨[], 1⟩ "sid" (.data [("user", "alice")]) (by decide) rfl rfl).1
    (.ident "1") rfl rfl (by decide)

/-- C7: the Close/loop handshake. In every reachable state: once the prepared
statements have been closed, `Close` has passed the full handshake and the
loop has terminated; `Close` reaches the statement-closing code only after
the loop's acknowledgement on `doneStoppingChan` (so the statements are never
released while a sweep could still be running); and from any state in which
`Close` has returned, no later step starts another sweep. -/
theorem C7_close_blocks_until_ack (s : Sys) (hs : Reachable s) :
    (s.stmtsClosed = true → s.main = .closeDone ∧ s.loop = .terminated) ∧
    ((s.main = .closeStmts ∨ s.main = .closeDone) → s.loop = .terminated) ∧
    (∀ t, s.main = .closeDone → StepStar s t →
      t.sweeps = s.sweeps ∧ t.loop = .terminated) := by
  obtain ⟨_, _, _, _, h5, _, h7, _, _⟩ := reachable_inv hs
  refine ⟨fun hc => ?_, h5, fun t hc hstar => ?_⟩
  · have hm := h7.mp hc
    exact ⟨hm, h5 (Or.inr hm)⟩
  · have hterm := h5 (Or.inr hc)
    obtain ⟨ha, hb⟩ := terminated_star hstar hterm
    exact ⟨hb, ha⟩

theorem C7_close_blocks_until_ack_witness :
    (⟨.terminated, .closeDone, 1, 0, true⟩ : Sys).loop = .terminated ∧
    (⟨.terminated, .closeDone, 1, 0, true⟩ : Sys).sweeps = 0 := by
  have h := C7_close_blocks_until_ack _ reachable_closed
  exact ⟨(h.1 rfl).2, (h.2.2 _ rfl (StepStar.refl _)).1⟩

/-- C9: construction runs exactly one synchronous sweep before the background
loop starts: in every reachable state, once the loop goroutine exists the
constructor's synchronous sweep count is exactly one, and any state with at
least one background sweep already has the startup sweep behind it — so the
first background tick is never the first reclamation. -/
theorem C9_ctor_sweeps_once_before_loop (s : Sys) (hs : Reachable s) :
    (s.loop ≠ .notStarted → s.initialSweeps = 1) ∧
    (1 ≤ s.sweeps → s.initialSweeps = 1) := by
  obtain ⟨_, _, _, _, _, _, _, h8, h9⟩ := reachable_inv hs
  exact ⟨h8, h9⟩

theorem C9_ctor_sweeps_once_before_loop_witness :
    (⟨.atSelect, .running, 1, 0, false⟩ : Sys).initialSweeps = 1 :=
  (C9_ctor_sweeps_once_before_loop _ reachable_running).1 (by decide)

end Mariadbstore
